import Mathlib

/-!
Verification of the best-model selection and consolidation pipeline of
`output_name_update.py` (functions `process_ranking_and_write_summary`,
`extract_best_number`, `select_unrelaxed_to_or_based_output`).

The filesystem is modelled shallowly: a sequence folder is a name together
with an association list from file names to file contents; a job folder is a
list of entries, each either a sequence sub-directory or a plain file.  File
contents are either a parsed ranking JSON document, a summary JSON object, or
opaque raw bytes.  JSON numbers are modelled as rationals.  Uncaught Python
exceptions (TypeError, KeyError, ValueError, IndexError) are modelled as an
explicit crash value that aborts the remainder of the run, exactly as an
uncaught exception aborts `process_ranking_and_write_summary`.
-/

namespace AFConsolidate

/-- A parsed `ranking_debug.json` document: the ordered `order` list of model
identifiers, and the two optional score mappings, `plddts` and `iptm+ptm`
(each a JSON object: an association list from model identifier to number). -/
structure RankingData where
  order : List String
  plddts : Option (List (String × ℚ))
  iptm : Option (List (String × ℚ))
deriving DecidableEq, Repr

/-- Content of a file: a ranking JSON document, a summary JSON object
(as written by `json.dump(best_models_data, ...)`), or opaque raw bytes. -/
inductive Content where
  | ranking (r : RankingData)
  | summaryObj (m : List (String × ℚ))
  | raw (s : String)
deriving DecidableEq, Repr

/-- A sequence sub-folder: its directory name and its files. -/
structure SeqFolder where
  name : String
  files : List (String × Content)
deriving DecidableEq, Repr

/-- A first-level entry of the job folder as returned by `os.listdir`:
either a sub-directory or a plain file (plain files are skipped by the
`os.path.isdir` check at line 90). -/
inductive JobEntry where
  | dir (f : SeqFolder)
  | file (name : String)
deriving DecidableEq, Repr

/-- File lookup in a folder (`os.path.exists` / `open`): first match in the
association list.  Directory listings have unique names, so first match is
exact. -/
def lookupFile : List (String × Content) → String → Option Content
  | [], _ => none
  | (k, c) :: rest, n => if k = n then some c else lookupFile rest n

/-- Python dict lookup `m[k]` on a score mapping, as an Option. -/
def dictGet : List (String × ℚ) → String → Option ℚ
  | [], _ => none
  | (k, v) :: rest, n => if k = n then some v else dictGet rest n

/-- Line 109: `scores = ranking_data.get("plddts") or ranking_data.get("iptm+ptm")`.
Python `x or y` returns `x` when `x` is truthy (a non-empty dict) and `y`
otherwise; an absent key gives `None` and an empty dict is falsy. -/
def resolveScores (r : RankingData) : Option (List (String × ℚ)) :=
  match r.plddts with
  | some m => if m = [] then r.iptm else some m
  | none => r.iptm

/-- Numeric value of a decimal digit character. -/
def digitVal (c : Char) : Nat := c.toNat - 48

/-- `int()` of a list of decimal digit characters. -/
def natOfDigits (ds : List Char) : Nat := ds.foldl (fun a c => a * 10 + digitVal c) 0

/-- Split a character list into its maximal leading run of decimal digits and
the rest (the greedy match of a digit run). -/
def spanDigits : List Char → List Char × List Char
  | [] => ([], [])
  | c :: cs =>
    if c.isDigit then
      let p := spanDigits cs
      (c :: p.1, p.2)
    else ([], c :: cs)

/-- Try to match the regular expression `model_(\d+)_pred` at the start of
`cs`: the literal `model_`, then a non-empty digit run, then the literal
`_pred`.  Greedy `\d+` with backtracking can only succeed on the maximal
digit run, since `_pred` starts with a non-digit. -/
def matchModelAt (cs : List Char) : Option Nat :=
  if (String.toList ("model_")).isPrefixOf cs then
    let rest := cs.drop 6
    let p := spanDigits rest
    if p.1.isEmpty then none
    else if (String.toList ("_pred")).isPrefixOf p.2 then some (natOfDigits p.1)
    else none
  else none

/-- `re.search`: try the pattern at each start position, leftmost first. -/
def searchModel : List Char → Option Nat
  | [] => none
  | c :: cs =>
    match matchModelAt (c :: cs) with
    | some n => some n
    | none => searchModel cs

/-- Lines 144-150, `extract_best_number`: extract the number between
`model_` and `_pred` via `re.search(r'model_(\d+)_pred', best_model)`;
`none` models the `ValueError` raised when there is no match. -/
def extract_best_number (s : String) : Option Nat := searchModel s.toList

/-- The Python exceptions that escape `process_ranking_and_write_summary`
and abort the whole run. -/
inductive CrashKind where
  /-- `ranking_data["order"][0]` on a document whose order list is empty or
  missing (KeyError / IndexError, line 106). -/
  | orderError
  /-- `json.load` cannot parse the ranking file (line 103). -/
  | parseError
  /-- `scores[best_model]` with `scores = None` (TypeError, line 115),
  reached after the KEY ERROR diagnostic of lines 110-113. -/
  | scoresNone
  /-- `scores[best_model]` with `best_model` absent (KeyError, line 115). -/
  | modelNotInScores
  /-- `extract_best_number` raised ValueError (line 121 / 150). -/
  | extractError
deriving DecidableEq, Repr

/-- Effect of processing one sequence sub-folder (one iteration of the loop
at line 86): the summary entry added to `best_models_data` (line 118), the
copy performed into the processed directory (destination file name and the
copied content, line 134), the diagnostics printed, and the uncaught
exception if one is raised. -/
structure SeqStep where
  entry : Option (String × ℚ)
  copy : Option (String × Content)
  diags : List String
  crash : Option CrashKind
deriving DecidableEq, Repr

/-- Lines 124-127: look for `unrelaxed_<best>.pdb` first, then
`<name>_unrelaxed_<best>.pdb`; return the name of the first that exists. -/
def locate_pdb (f : SeqFolder) (best : String) : Option String :=
  let n1 := "unrelaxed_" ++ best ++ ".pdb"
  let n2 := f.name ++ "_unrelaxed_" ++ best ++ ".pdb"
  if (lookupFile f.files n1).isSome then some n1
  else if (lookupFile f.files n2).isSome then some n2
  else none

/-- `json.load` of the ranking file: succeeds only on a ranking document. -/
def parseRanking : Content → Option RankingData
  | .ranking r => some r
  | _ => none

/-- Lines 101-135: the body of the loop once a ranking file has been found,
with content `c`.  Faithful order of effects: `order[0]` (line 106), score
resolution (109) with the KEY ERROR diagnostic (110-113), score lookup (115),
summary entry insertion (118), model-number extraction (121), structure-file
location (124-127) with its diagnostic (128), copy (132-135). -/
def processRanking (f : SeqFolder) (c : Content) : SeqStep :=
  match parseRanking c with
  | none => { entry := none, copy := none, diags := [], crash := some .parseError }
  | some r =>
    match r.order.head? with
    | none => { entry := none, copy := none, diags := [], crash := some .orderError }
    | some best =>
      match resolveScores r with
      | none =>
        { entry := none, copy := none
          diags := ["KEY ERROR: neither plddts nor iptm+ptm found in ranking file"]
          crash := some .scoresNone }
      | some scores =>
        match dictGet scores best with
        | none => { entry := none, copy := none, diags := [], crash := some .modelNotInScores }
        | some v =>
          let e := (f.name ++ "_" ++ best, v)
          match extract_best_number best with
          | none => { entry := some e, copy := none, diags := [], crash := some .extractError }
          | some num =>
            match locate_pdb f best with
            | none =>
              { entry := some e, copy := none
                diags := ["PDB file not found for " ++ best ++ " in " ++ f.name]
                crash := none }
            | some src =>
              { entry := some e
                copy := some (f.name ++ "_" ++ toString num ++ ".pdb",
                              (lookupFile f.files src).getD (.raw ""))
                diags := ["Copied " ++ src ++ " for " ++ f.name]
                crash := none }

/-- Lines 93-99 then 101-135: processing of one sequence sub-folder.  The
ranking file is `<name>_ranking_debug.json` when that exists, otherwise
`ranking_debug.json`; when neither exists the folder is skipped with one
diagnostic. -/
def processSeq (f : SeqFolder) : SeqStep :=
  match lookupFile f.files (f.name ++ "_ranking_debug.json") with
  | some c => processRanking f c
  | none =>
    match lookupFile f.files ("ranking_debug.json") with
    | some c => processRanking f c
    | none =>
      { entry := none, copy := none
        diags := ["Ranking file not found in " ++ f.name]
        crash := none }

/-- Cumulative result of `process_ranking_and_write_summary` over the listed
job entries: the `best_models_data` dict in insertion order, the copies
performed into the processed directory in order, the diagnostics, and the
crash that aborted the run, if any.  A crash stops the loop: no later entry
is processed (copies of later folders never happen), and the summary file is
never written. -/
structure JobResult where
  entries : List (String × ℚ)
  copies : List (String × Content)
  diags : List String
  crash : Option CrashKind
deriving DecidableEq, Repr

/-- The loop of lines 86-135 over the `os.listdir` entries of the job
folder.  Non-directories are skipped (line 90). -/
def runJob : List JobEntry → JobResult
  | [] => { entries := [], copies := [], diags := [], crash := none }
  | .file _ :: rest => runJob rest
  | .dir f :: rest =>
    let s := processSeq f
    match s.crash with
    | some k => { entries := s.entry.toList, copies := [], diags := s.diags, crash := some k }
    | none =>
      let r := runJob rest
      { entries := s.entry.toList ++ r.entries
        copies := s.copy.toList ++ r.copies
        diags := s.diags ++ r.diags
        crash := r.crash }

/-- The summary actually serialised to `best_models.json` (lines 137-140):
`none` when the run aborted before reaching line 139. -/
def summaryOf (es : List JobEntry) : Option (List (String × ℚ)) :=
  let r := runJob es
  if r.crash.isSome then none else some r.entries

/-- The processed directory as a mapping from file name to content. -/
def Store : Type := String → Option Content

/-- Writing (or overwriting) one file in a directory. -/
def writeStore (d : Store) (n : String) (c : Content) : Store :=
  fun k => if k = n then some c else d k

/-- Applying a list of file writes in order; a later write to the same name
overwrites an earlier one. -/
def applyWrites (d : Store) : List (String × Content) → Store
  | [] => d
  | p :: ws => applyWrites (writeStore d p.1 p.2) ws

/-- All writes `process_ranking_and_write_summary` performs into the
`<job>_processed` directory: the structure-file copies in order, then (only
when the run did not crash) the final write of `best_models.json`. -/
def runWrites (es : List JobEntry) : List (String × Content) :=
  let r := runJob es
  r.copies ++ (match r.crash with
    | some _ => []
    | none => [("best_models.json", Content.summaryObj r.entries)])

/-- One run of the Consolidation Orchestrator on the job entries `es`, with
the processed directory initially in state `d`. -/
def runOrchestrator (d : Store) (es : List JobEntry) : Store :=
  applyWrites d (runWrites es)

/-! ### The Relocation Pass (`select_unrelaxed_to_or_based_output`) -/

/-- `os.path.splitext` for a bare file name (no directory separator): split
off the extension at the last dot, except that a name whose characters
before that dot are all dots (a leading-dots name such as `.bashrc`) is not
split. -/
def splitext (s : String) : String × String :=
  let rev := s.toList.reverse
  let extRev := rev.takeWhile (fun c => c != '.')
  let restRev := rev.dropWhile (fun c => c != '.')
  match restRev with
  | [] => (s, "")
  | _ :: beforeRev =>
    if beforeRev.any (fun c => c != '.') then
      (String.mk beforeRev.reverse, String.mk ('.' :: extRev.reverse))
    else (s, "")

/-- Lines 182-185: a file is copied by the Relocation Pass exactly when its
name starts with `unrelaxed_model` or is exactly `ranking_debug.json`. -/
def shouldRelocate (filename : String) : Bool :=
  (String.toList ("unrelaxed_model")).isPrefixOf filename.toList
    || filename = "ranking_debug.json"

/-- Drop a trailing `_pred_0` from a base name when present (lines 196-197). -/
def stripPred0 (nm : String) : String :=
  let cs := nm.toList
  if (String.toList ("_pred_0")).isSuffixOf cs then
    String.mk (cs.take (cs.length - 7))
  else nm

/-- Lines 188-198: destination file name for a copied file.  Files starting
with `unrelaxed_model` have a trailing `_pred_0` stripped from the base name
(the extension preserved) before the sub-folder prefix is applied; all other
copied files are simply prefixed. -/
def relocName (sub filename : String) : String :=
  if (String.toList ("unrelaxed_model")).isPrefixOf filename.toList then
    let p := splitext filename
    sub ++ "_" ++ stripPred0 p.1 ++ p.2
  else sub ++ "_" ++ filename

/-- Lines 177-208: the writes the Relocation Pass performs into the
destination sub-folder for one source sub-folder, in listing order. -/
def relocFolderWrites (f : SeqFolder) : List (String × Content) :=
  (f.files.filter (fun p => shouldRelocate p.1)).map
    (fun p => (relocName f.name p.1, p.2))

/-- One run of the Relocation Pass for one sub-folder, with its destination
sub-folder initially in state `d`; `shutil.copy2` overwrites silently. -/
def relocRun (d : Store) (f : SeqFolder) : Store :=
  applyWrites d (relocFolderWrites f)

/-- The last write to name `k` in a write list, if any (later writes
override earlier ones). -/
def lastWrite : List (String × Content) → String → Option Content
  | [], _ => none
  | p :: ws, k =>
    match lastWrite ws k with
    | some c => some c
    | none => if k = p.1 then some p.2 else none

/-- First option if present, else the fallback: the effect of a possible
overwrite on a lookup. -/
def overlay (o : Option Content) (fallback : Option Content) : Option Content :=
  match o with
  | some c => some c
  | none => fallback

/-- Whether a job entry is a sub-directory (`os.path.isdir`, line 90). -/
def isDirEntry : JobEntry → Bool
  | .dir _ => true
  | .file _ => false

/-! ### Concrete data for the specified scenarios -/

/-- The ranking document of the C3 scenario: order `[model_3_pred_0]` and
`plddts` mapping `model_3_pred_0` to 87.5 (the rational 175/2). -/
def rankingC3 : RankingData :=
  { order := ["model_3_pred_0"]
    plddts := some [("model_3_pred_0", mkRat 175 2)]
    iptm := none }

/-- The sequence folder `S1` of the C3 scenario: the plain-named ranking
file and the structure file `unrelaxed_model_3_pred_0.pdb`. -/
def folderC3 : SeqFolder :=
  { name := "S1"
    files := [("ranking_debug.json", .ranking rankingC3),
              ("unrelaxed_model_3_pred_0.pdb", .raw "ATOM")] }

/-- An empty processed directory. -/
def emptyStore : Store := fun _ => none

end AFConsolidate

namespace AFConsolidate

/-! ### Claim theorems -/

/-- C3: for the job folder with the single sequence folder `S1` holding
ranking file order `[model_3_pred_0]`, plddts score 87.5, and file
`unrelaxed_model_3_pred_0.pdb`, the orchestrator writes a summary equal to
the one-entry mapping from `S1_model_3_pred_0` to 87.5, copies exactly one
structure file for `S1` into the consolidated directory, and
`best_models.json` in the processed directory holds exactly that mapping. -/
theorem consolidation_single_sequence_scenario :
    summaryOf [.dir folderC3] = some [("S1_model_3_pred_0", mkRat 175 2)]
    ∧ mkRat 175 2 = (87.5 : ℚ)
    ∧ (runJob [.dir folderC3]).copies = [("S1_3.pdb", Content.raw "ATOM")]
    ∧ runOrchestrator emptyStore [.dir folderC3] ("best_models.json") =
        some (Content.summaryObj [("S1_model_3_pred_0", mkRat 175 2)]) := by
  refine ⟨by decide, by norm_num, by decide, by decide⟩

/-- C4: the ranking file is resolved by looking for
`<sequence>_ranking_debug.json` first and `ranking_debug.json` only when the
former is absent; when both are absent the sequence is skipped with exactly
one diagnostic, contributes nothing to the summary or the copies, and the
remaining entries are processed exactly as if the folder were not there. -/
theorem ranking_file_fallback_and_skip (f : SeqFolder) (rest : List JobEntry) :
    (∀ c, lookupFile f.files (f.name ++ "_ranking_debug.json") = some c →
        processSeq f = processRanking f c)
    ∧ (∀ c, lookupFile f.files (f.name ++ "_ranking_debug.json") = none →
        lookupFile f.files ("ranking_debug.json") = some c →
        processSeq f = processRanking f c)
    ∧ (lookupFile f.files (f.name ++ "_ranking_debug.json") = none →
        lookupFile f.files ("ranking_debug.json") = none →
        processSeq f =
          { entry := none, copy := none
            diags := ["Ranking file not found in " ++ f.name], crash := none }
        ∧ runJob (.dir f :: rest) =
          { runJob rest with
            diags := ("Ranking file not found in " ++ f.name) :: (runJob rest).diags }) := by
  refine ⟨fun c h => ?_, fun c h1 h2 => ?_, fun h1 h2 => ⟨?_, ?_⟩⟩
  · simp [processSeq, h]
  · simp [processSeq, h1, h2]
  · simp [processSeq, h1, h2]
  · simp [runJob, processSeq, h1, h2]

/-- Sequence folder with only the prefixed ranking-file name and a decoy
plain one, to witness the resolution priority. -/
def folderPref : SeqFolder :=
  { name := "S2"
    files := [("S2_ranking_debug.json", .ranking rankingC3),
              ("ranking_debug.json", .raw "decoy")] }

/-- Sequence folder with no ranking file at all. -/
def folderNone : SeqFolder :=
  { name := "S3", files := [("unrelaxed_model_3_pred_0.pdb", .raw "ATOM")] }

/-- Witness for the ranking-file fallback theorem at concrete folders:
the prefixed name wins over a coexisting plain one, the plain name is used
as fallback, and a folder with neither is skipped with one diagnostic while
the rest of the job is processed unchanged. -/
theorem ranking_file_fallback_and_skip_witness :
    processSeq folderPref = processRanking folderPref (.ranking rankingC3)
    ∧ processSeq folderC3 = processRanking folderC3 (.ranking rankingC3)
    ∧ processSeq folderNone =
        { entry := none, copy := none
          diags := ["Ranking file not found in S3"], crash := none }
    ∧ runJob [.dir folderNone, .dir folderC3] =
        { runJob [.dir folderC3] with
          diags := "Ranking file not found in S3" :: (runJob [.dir folderC3]).diags } := by
  refine ⟨?_, ?_, ?_, ?_⟩
  · exact (ranking_file_fallback_and_skip folderPref []).1 _ (by decide)
  · exact (ranking_file_fallback_and_skip folderC3 []).2.1 _ (by decide) (by decide)
  · have h := (ranking_file_fallback_and_skip folderNone [.dir folderC3]).2.2
      (by decide) (by decide)
    exact h.1
  · have h := (ranking_file_fallback_and_skip folderNone [.dir folderC3]).2.2
      (by decide) (by decide)
    exact h.2

/-- C7: the Model Locator tries `unrelaxed_<model>.pdb` first and
`<sequence>_unrelaxed_<model>.pdb` second, returning the first that exists;
when both exist, the un-prefixed file is the one selected and its content is
the one copied into the consolidated directory. -/
theorem model_locator_order (f : SeqFolder) (best : String) :
    ((lookupFile f.files ("unrelaxed_" ++ best ++ ".pdb")).isSome →
        locate_pdb f best = some ("unrelaxed_" ++ best ++ ".pdb"))
    ∧ (lookupFile f.files ("unrelaxed_" ++ best ++ ".pdb") = none →
        (lookupFile f.files (f.name ++ "_unrelaxed_" ++ best ++ ".pdb")).isSome →
        locate_pdb f best = some (f.name ++ "_unrelaxed_" ++ best ++ ".pdb"))
    ∧ (lookupFile f.files ("unrelaxed_" ++ best ++ ".pdb") = none →
        lookupFile f.files (f.name ++ "_unrelaxed_" ++ best ++ ".pdb") = none →
        locate_pdb f best = none)
    ∧ ∀ (c1 : Content) (r : RankingData) (m : List (String × ℚ)) (v : ℚ) (num : Nat),
        lookupFile f.files ("unrelaxed_" ++ best ++ ".pdb") = some c1 →
        r.order.head? = some best →
        resolveScores r = some m →
        dictGet m best = some v →
        extract_best_number best = some num →
        (processRanking f (.ranking r)).copy =
          some (f.name ++ "_" ++ toString num ++ ".pdb", c1) := by
  refine ⟨fun h => ?_, fun h1 h2 => ?_, fun h1 h2 => ?_,
    fun c1 r m v num hc ho hs hd he => ?_⟩
  · simp [locate_pdb, h]
  · simp [locate_pdb, h1, h2]
  · simp [locate_pdb, h1, h2]
  · simp [processRanking, parseRanking, ho, hs, hd, he, locate_pdb, hc]

/-- Sequence folder holding both structure-file namings with different
contents, to witness the locator priority. -/
def folderBoth : SeqFolder :=
  { name := "S1"
    files := [("ranking_debug.json", .ranking rankingC3),
              ("unrelaxed_model_3_pred_0.pdb", .raw "PLAIN"),
              ("S1_unrelaxed_model_3_pred_0.pdb", .raw "PREFIXED")] }

/-- Witness for the Model Locator theorem: with both naming conventions on
disk, the un-prefixed file is located and its content is the copied one. -/
theorem model_locator_order_witness :
    locate_pdb folderBoth ("model_3_pred_0") = some ("unrelaxed_model_3_pred_0.pdb")
    ∧ (processRanking folderBoth (.ranking rankingC3)).copy =
        some ("S1_3.pdb", Content.raw "PLAIN") := by
  refine ⟨(model_locator_order folderBoth ("model_3_pred_0")).1 (by decide), ?_⟩
  exact (model_locator_order folderBoth ("model_3_pred_0")).2.2.2
    (Content.raw "PLAIN") rankingC3 [("model_3_pred_0", mkRat 175 2)] (mkRat 175 2) 3
    (by decide) (by decide) (by decide) (by decide) (by decide)

/-! ### Write-list lemmas shared by the idempotence claims -/

theorem overlay_none (o : Option Content) : overlay o none = o := by
  cases o <;> rfl

theorem overlay_assoc (a b c : Option Content) :
    overlay (overlay a b) c = overlay a (overlay b c) := by
  cases a <;> cases b <;> rfl

/-- A lookup after a list of writes sees the last write to that name, and
falls back to the previous directory state only for names never written. -/
theorem applyWrites_lookup (ws : List (String × Content)) (d : Store) (k : String) :
    applyWrites d ws k = overlay (lastWrite ws k) (d k) := by
  induction ws generalizing d with
  | nil => rfl
  | cons p ws ih =>
    show applyWrites (writeStore d p.1 p.2) ws k = _
    rw [ih]
    show _ = overlay (overlay (lastWrite ws k) (if k = p.1 then some p.2 else none)) (d k)
    rw [overlay_assoc]
    cases lastWrite ws k with
    | some c => rfl
    | none =>
      show writeStore d p.1 p.2 k = overlay (if k = p.1 then some p.2 else none) (d k)
      unfold writeStore
      by_cases h : k = p.1 <;> simp [h, overlay]

/-- Applying the same write list twice is the same as applying it once. -/
theorem applyWrites_self (d : Store) (ws : List (String × Content)) :
    applyWrites (applyWrites d ws) ws = applyWrites d ws := by
  funext k
  rw [applyWrites_lookup, applyWrites_lookup]
  cases lastWrite ws k <;> rfl

/-- The last write in a concatenation: the second list takes precedence. -/
theorem lastWrite_append (ws1 ws2 : List (String × Content)) (k : String) :
    lastWrite (ws1 ++ ws2) k = overlay (lastWrite ws2 k) (lastWrite ws1 k) := by
  induction ws1 with
  | nil => simp [lastWrite, overlay_none]
  | cons p ws ih =>
    show overlay (lastWrite (ws ++ ws2) k) _ = _
    rw [ih, overlay_assoc]
    rfl

/-- C6: running the Consolidation Orchestrator a second time on the same
unchanged job folder leaves the processed directory exactly as after the
first run: the summary file and every consolidated file are unchanged, and
no additional files appear. -/
theorem orchestrator_idempotent (d : Store) (es : List JobEntry) :
    runOrchestrator (runOrchestrator d es) es = runOrchestrator d es :=
  applyWrites_self d (runWrites es)

/-- C9: re-running the Relocation Pass over an already-processed sub-folder
changes nothing (existing destination files are silently overwritten with
the same content, no duplicates are created, nothing fails), and a
destination file's content after a run is the last write of the most recent
run when that name was written at all — never an accumulation of earlier
destination state. -/
theorem relocation_rerun_last_write_wins :
    (∀ (d : Store) (f : SeqFolder), relocRun (relocRun d f) f = relocRun d f)
    ∧ (∀ (d : Store) (f : SeqFolder) (k : String),
        relocRun d f k = overlay (lastWrite (relocFolderWrites f) k) (d k)) :=
  ⟨fun d f => applyWrites_self d (relocFolderWrites f),
   fun d f k => applyWrites_lookup (relocFolderWrites f) d k⟩

/-- C10 amended: whenever the run completes without an uncaught exception,
`best_models.json` is written into the processed directory at the end of the
run with exactly the accumulated summary — regardless of the directory's
previous contents, so any previous version is overwritten; and a job folder
without any sub-directory accumulates the empty summary (and cannot crash),
so the file then holds the empty JSON object.  (A run in which sequence
folders exist but none succeeds still writes the file, but not necessarily
with an empty object: entries are recorded before the structure-file copy is
attempted.) -/
theorem summary_written_unconditionally (d : Store) (es : List JobEntry) :
    ((runJob es).crash = none →
      runOrchestrator d es ("best_models.json") =
        some (Content.summaryObj (runJob es).entries))
    ∧ ((∀ e ∈ es, isDirEntry e = false) →
        (runJob es).entries = [] ∧ (runJob es).crash = none) := by
  constructor
  · intro h
    show applyWrites d
        ((runJob es).copies ++ (match (runJob es).crash with
          | some _ => []
          | none => [("best_models.json", Content.summaryObj (runJob es).entries)]))
        ("best_models.json") = _
    rw [h]
    rw [applyWrites_lookup, lastWrite_append]
    rfl
  · intro h
    induction es with
    | nil => exact ⟨rfl, rfl⟩
    | cons e rest ih =>
      cases e with
      | dir f => exact absurd (h _ (List.mem_cons_self _ _)) (by simp [isDirEntry])
      | file n =>
        exact ih fun e he => h e (List.mem_cons_of_mem _ he)

/-- Witness for the unconditional summary write: a job folder holding one
plain file and no sub-directory ends with `best_models.json` equal to the
empty JSON object. -/
theorem summary_written_unconditionally_witness :
    runOrchestrator emptyStore [JobEntry.file ("readme.txt")] ("best_models.json") =
      some (Content.summaryObj [])
    ∧ (runJob [JobEntry.file ("readme.txt")]).entries = [] := by
  constructor
  · have h := (summary_written_unconditionally emptyStore
      [JobEntry.file ("readme.txt")]).1 (by decide)
    exact h
  · exact ((summary_written_unconditionally emptyStore
      [JobEntry.file ("readme.txt")]).2 (by decide)).1

/-! ### The Relocation Pass naming rule -/

/-- Modelled from the claim's words: the usual base-name / extension
decomposition of a file name, split at the last dot (the extension keeps the
dot; a dot-free name has an empty extension). -/
def lastDotSplit (s : String) : String × String :=
  let rev := s.toList.reverse
  let extRev := rev.takeWhile (fun c => c != '.')
  let restRev := rev.dropWhile (fun c => c != '.')
  match restRev with
  | [] => (s, "")
  | _ :: beforeRev => (String.mk beforeRev.reverse, String.mk ('.' :: extRev.reverse))

/-- Modelled from the claim's words: each copy of the Relocation Pass is
named `<subfolder-name>_<original-name>`, except that for files starting
with `unrelaxed_model` a trailing `_pred_0` segment is stripped from the
base name, the extension preserved, before the prefix is applied. -/
def claimDestName (sub filename : String) : String :=
  if (String.toList ("unrelaxed_model")).isPrefixOf filename.toList then
    let p := lastDotSplit filename
    sub ++ "_" ++ stripPred0 p.1 ++ p.2
  else sub ++ "_" ++ filename

theorem dropWhile_head_false (p : Char → Bool) (l : List Char) (d : Char)
    (tl : List Char) (h : l.dropWhile p = d :: tl) : p d = false := by
  induction l with
  | nil => simp [List.dropWhile] at h
  | cons a l ih =>
    cases hpa : p a with
    | true =>
      refine ih ?_
      simpa [List.dropWhile_cons, hpa] using h
    | false =>
      rw [List.dropWhile_cons, hpa] at h
      simp at h
      obtain ⟨rfl, -⟩ := h
      exact hpa

/-- Behind the last dot of a name whose first character is not a dot, there
is always some non-dot character (namely that first character). -/
theorem any_nonDot_of_dropWhile (c : Char) (cs : List Char)
    (hc : (c != '.') = true) (d : Char) (beforeRev : List Char)
    (hrest : (c :: cs).reverse.dropWhile (fun x => x != '.') = d :: beforeRev) :
    beforeRev.any (fun x => x != '.') = true := by
  have hsplit : (c :: cs).reverse.takeWhile (fun x => x != '.') ++ (d :: beforeRev)
      = (c :: cs).reverse := by
    rw [← hrest, List.takeWhile_append_dropWhile]
  have hlist : c :: cs
      = (beforeRev.reverse ++ [d])
          ++ ((c :: cs).reverse.takeWhile (fun x => x != '.')).reverse := by
    have h2 := congrArg List.reverse hsplit
    simpa [List.reverse_append] using h2.symm
  cases hb : beforeRev.reverse with
  | nil =>
    rw [hb] at hlist
    simp at hlist
    have hd : (d != '.') = false :=
      dropWhile_head_false (fun x => x != '.') ((c :: cs).reverse) d beforeRev hrest
    simp at hd
    rw [hlist.1, hd] at hc
    simp at hc
  | cons hd0 tl =>
    rw [hb] at hlist
    simp at hlist
    have hcm : c ∈ beforeRev := by
      rw [← List.mem_reverse, hb, hlist.1]
      exact List.mem_cons_self _ _
    exact List.any_eq_true.mpr ⟨c, hcm, hc⟩

/-- `os.path.splitext` coincides with the plain last-dot decomposition on
any name whose first character is not a dot. -/
theorem splitext_eq_lastDotSplit (s : String) (c : Char) (cs : List Char)
    (hn : s.toList = c :: cs) (hc : (c != '.') = true) :
    splitext s = lastDotSplit s := by
  have hn2 : s.data = c :: cs := hn
  cases hrest : (c :: cs).reverse.dropWhile (fun x => x != '.') with
  | nil =>
    simp only [List.reverse_cons] at hrest
    simp [splitext, lastDotSplit, hn, hn2, hrest]
  | cons d beforeRev =>
    have hany := any_nonDot_of_dropWhile c cs hc d beforeRev hrest
    simp only [List.reverse_cons] at hrest
    simp [splitext, lastDotSplit, hn, hn2, hrest, hany]

/-- The implemented destination naming agrees with the claimed one on every
file name. -/
theorem relocName_eq_claim (sub n : String) : relocName sub n = claimDestName sub n := by
  unfold relocName claimDestName
  cases hpre : (String.toList ("unrelaxed_model")).isPrefixOf n.toList with
  | false => simp [hpre]
  | true =>
    have hsplit : splitext n = lastDotSplit n := by
      cases hn : n.toList with
      | nil => rw [hn] at hpre; simp [List.isPrefixOf] at hpre
      | cons c cs =>
        rw [hn] at hpre
        have hcu : c = 'u' := by
          simp [List.isPrefixOf] at hpre
          exact hpre.1.symm
        exact splitext_eq_lastDotSplit n c cs hn (by rw [hcu]; decide)
    simp [hpre, hsplit]

/-- C8: for every sub-folder, the Relocation Pass writes exactly one copy
for each file whose name starts with `unrelaxed_model` or is exactly
`ranking_debug.json`, in listing order, and the destination name is the
original name prefixed with the sub-folder name, except that files starting
with `unrelaxed_model` first have a trailing `_pred_0` segment stripped from
the base name with the extension preserved. -/
theorem relocation_copy_set_and_naming (f : SeqFolder) :
    relocFolderWrites f =
      (f.files.filter (fun p =>
          (String.toList ("unrelaxed_model")).isPrefixOf p.1.toList
            || p.1 = "ranking_debug.json")).map
        (fun p => (claimDestName f.name p.1, p.2)) := by
  show (f.files.filter (fun p => shouldRelocate p.1)).map
      (fun p => (relocName f.name p.1, p.2)) = _
  simp only [relocName_eq_claim]
  rfl

/-! ### Interchangeability of the two score keys -/

/-- Move the `plddts` mapping of a ranking document to the `iptm+ptm` key,
leaving `plddts` absent. -/
def swapScores (r : RankingData) : RankingData :=
  { order := r.order, plddts := none, iptm := r.plddts }

/-- Apply the score-key move to a ranking file, leaving other files as they
are. -/
def swapContent : Content → Content
  | .ranking r => .ranking (swapScores r)
  | .summaryObj m => .summaryObj m
  | .raw s => .raw s

/-- Apply the score-key move to every ranking file of a folder. -/
def swapFolder (f : SeqFolder) : SeqFolder :=
  { name := f.name, files := f.files.map (fun p => (p.1, swapContent p.2)) }

/-- Apply the score-key move to every ranking file of a job entry. -/
def swapEntry : JobEntry → JobEntry
  | .dir f => .dir (swapFolder f)
  | .file n => .file n

/-- A ranking file that does not already use the `iptm+ptm` key. -/
def contentNoIptm : Content → Bool
  | .ranking r => r.iptm = none
  | .summaryObj _ => true
  | .raw _ => true

/-- A folder none of whose ranking files uses the `iptm+ptm` key. -/
def folderNoIptm (f : SeqFolder) : Bool :=
  f.files.all (fun p => contentNoIptm p.2)

/-- A job entry none of whose ranking files uses the `iptm+ptm` key. -/
def entryNoIptm : JobEntry → Bool
  | .dir f => folderNoIptm f
  | .file _ => true

theorem lookupFile_map_swap (files : List (String × Content)) (n : String) :
    lookupFile (files.map (fun p => (p.1, swapContent p.2))) n
      = (lookupFile files n).map swapContent := by
  induction files with
  | nil => rfl
  | cons p fs ih =>
    obtain ⟨k, c⟩ := p
    show (if k = n then some (swapContent c) else _) = _
    by_cases h : k = n <;> simp [lookupFile, h, ih]

theorem lookupFile_all_noIptm (files : List (String × Content)) (n : String)
    (c : Content) (hall : files.all (fun p => contentNoIptm p.2) = true)
    (h : lookupFile files n = some c) : contentNoIptm c = true := by
  induction files with
  | nil => simp [lookupFile] at h
  | cons p fs ih =>
    obtain ⟨k, c0⟩ := p
    simp only [List.all_cons, Bool.and_eq_true] at hall
    by_cases hk : k = n
    · rw [show lookupFile ((k, c0) :: fs) n = if k = n then some c0 else lookupFile fs n
        from rfl, if_pos hk] at h
      cases h
      exact hall.1
    · rw [show lookupFile ((k, c0) :: fs) n = if k = n then some c0 else lookupFile fs n
        from rfl, if_neg hk] at h
      exact ih hall.2 h

theorem locate_pdb_swap (f : SeqFolder) (best : String) :
    locate_pdb (swapFolder f) best = locate_pdb f best := by
  unfold locate_pdb
  simp only [swapFolder, lookupFile_map_swap]
  cases lookupFile f.files ("unrelaxed_" ++ best ++ ".pdb") <;>
    cases lookupFile f.files (f.name ++ "_unrelaxed_" ++ best ++ ".pdb") <;> rfl

/-- Moving the score mapping from `plddts` to `iptm+ptm` leaves both the
summary entry and the crash/no-crash outcome of one ranking file unchanged
(the crash kind may differ: an empty mapping crashes as a `None` subscript
on one side and as a missing key on the other, but both abort). -/
theorem processRanking_swap (f : SeqFolder) (r : RankingData) (h : r.iptm = none) :
    (processRanking (swapFolder f) (.ranking (swapScores r))).entry
        = (processRanking f (.ranking r)).entry
    ∧ (processRanking (swapFolder f) (.ranking (swapScores r))).crash.isSome
        = (processRanking f (.ranking r)).crash.isSome := by
  unfold processRanking parseRanking
  cases ho : r.order.head? with
  | none => simp [swapScores, ho]
  | some best =>
    cases hpl : r.plddts with
    | none => simp [swapScores, resolveScores, ho, hpl, h]
    | some m =>
      by_cases hm : m = []
      · subst hm
        simp [swapScores, resolveScores, ho, hpl, h, dictGet]
      · simp only [swapScores, resolveScores, ho, hpl, h, if_neg hm]
        cases hd : dictGet m best with
        | none => simp [hd]
        | some v =>
          simp only [hd]
          cases he : extract_best_number best with
          | none => simp [he, swapFolder]
          | some num =>
            simp only [he, locate_pdb_swap]
            cases locate_pdb f best <;> simp [swapFolder]

theorem processSeq_swap (f : SeqFolder) (hf : folderNoIptm f = true) :
    (processSeq (swapFolder f)).entry = (processSeq f).entry
    ∧ (processSeq (swapFolder f)).crash.isSome = (processSeq f).crash.isSome := by
  unfold processSeq
  simp only [swapFolder, lookupFile_map_swap]
  cases h1 : lookupFile f.files (f.name ++ "_ranking_debug.json") with
  | some c =>
    simp only [h1, Option.map_some']
    have hc : contentNoIptm c = true := lookupFile_all_noIptm _ _ _ hf h1
    cases c with
    | ranking r =>
      exact processRanking_swap f r (by simpa [contentNoIptm] using hc)
    | summaryObj m => exact ⟨rfl, rfl⟩
    | raw s => exact ⟨rfl, rfl⟩
  | none =>
    simp only [h1, Option.map_none']
    cases h2 : lookupFile f.files ("ranking_debug.json") with
    | some c =>
      simp only [h2, Option.map_some']
      have hc : contentNoIptm c = true := lookupFile_all_noIptm _ _ _ hf h2
      cases c with
      | ranking r =>
        exact processRanking_swap f r (by simpa [contentNoIptm] using hc)
      | summaryObj m => exact ⟨rfl, rfl⟩
      | raw s => exact ⟨rfl, rfl⟩
    | none =>
      simp only [h2, Option.map_none']
      exact ⟨trivial, trivial⟩

theorem runJob_swap (es : List JobEntry) (h : ∀ e ∈ es, entryNoIptm e = true) :
    (runJob (es.map swapEntry)).entries = (runJob es).entries
    ∧ (runJob (es.map swapEntry)).crash.isSome = (runJob es).crash.isSome := by
  induction es with
  | nil => exact ⟨rfl, rfl⟩
  | cons e rest ih =>
    have hrest := ih (fun x hx => h x (List.mem_cons_of_mem _ hx))
    cases e with
    | file n => simpa [runJob, swapEntry] using hrest
    | dir f =>
      have hf : folderNoIptm f = true := h _ (List.mem_cons_self _ _)
      have hstep := processSeq_swap f hf
      cases hcs : (processSeq f).crash with
      | some k =>
        cases hcs2 : (processSeq (swapFolder f)).crash with
        | some k2 => simp [runJob, swapEntry, hcs, hcs2, hstep.1]
        | none =>
          exfalso
          have hx := hstep.2
          rw [hcs, hcs2] at hx
          simp at hx
      | none =>
        cases hcs2 : (processSeq (swapFolder f)).crash with
        | some k2 =>
          exfalso
          have hx := hstep.2
          rw [hcs, hcs2] at hx
          simp at hx
        | none =>
          simp [runJob, swapEntry, hcs, hcs2, hstep.1, hrest.1, hrest.2]

/-- C5: replacing every `plddts` mapping by an `iptm+ptm` mapping with
identical keys and values (with `plddts` then absent) yields an identical
`best_models.json` summary: the two score-key conventions are
interchangeable for the output. -/
theorem score_key_fallback_equivalence (es : List JobEntry)
    (h : ∀ e ∈ es, entryNoIptm e = true) :
    summaryOf (es.map swapEntry) = summaryOf es := by
  have hh := runJob_swap es h
  show (if (runJob (es.map swapEntry)).crash.isSome then none
        else some (runJob (es.map swapEntry)).entries)
      = (if (runJob es).crash.isSome then none else some (runJob es).entries)
  rw [hh.1, hh.2]

/-- Witness for the score-key equivalence at the concrete C3 job: the
`iptm+ptm` variant produces the very same summary. -/
theorem score_key_fallback_equivalence_witness :
    summaryOf (List.map swapEntry [JobEntry.dir folderC3]) = summaryOf [JobEntry.dir folderC3]
    ∧ summaryOf [JobEntry.dir folderC3] = some [("S1_model_3_pred_0", mkRat 175 2)] :=
  ⟨score_key_fallback_equivalence [JobEntry.dir folderC3] (by decide), by decide⟩

/-! ### Summary entries versus missing structure files (C2) -/

/-- `S1` with a fully resolved ranking but no structure file under either
accepted name. -/
def folderNoPdb : SeqFolder :=
  { name := "S1", files := [("ranking_debug.json", .ranking rankingC3)] }

/-- C2 counterexample: a sequence whose ranking resolves to a best model and
score but for which neither `unrelaxed_<model>.pdb` nor
`<sequence>_unrelaxed_<model>.pdb` exists still receives an entry in
`best_models.json` — the code inserts the entry at line 118, before the
structure-file lookup of lines 124-129, so the claimed `only after a
successful copy` behavior is false on the code. -/
theorem summary_entry_despite_missing_structure_file :
    locate_pdb folderNoPdb ("model_3_pred_0") = none
    ∧ summaryOf [JobEntry.dir folderNoPdb] = some [("S1_model_3_pred_0", mkRat 175 2)]
    ∧ (runJob [JobEntry.dir folderNoPdb]).copies = [] := by
  refine ⟨by decide, by decide, by decide⟩

/-- C2 amended: a sequence whose ranking resolves to a best model and score
(and whose model number extracts) but whose structure file is missing under
both naming conventions is skipped only for the copy: its summary entry has
already been recorded, and appears in `best_models.json` whenever the run
completes. -/
theorem entry_recorded_before_copy (f : SeqFolder) (r : RankingData)
    (best : String) (m : List (String × ℚ)) (v : ℚ) (num : Nat)
    (rest : List JobEntry)
    (hps : processSeq f = processRanking f (Content.ranking r))
    (ho : r.order.head? = some best)
    (hs : resolveScores r = some m)
    (hv : dictGet m best = some v)
    (he : extract_best_number best = some num)
    (hl : locate_pdb f best = none)
    (hrest : (runJob rest).crash = none) :
    processSeq f =
      { entry := some (f.name ++ "_" ++ best, v), copy := none
        diags := ["PDB file not found for " ++ best ++ " in " ++ f.name]
        crash := none }
    ∧ summaryOf (JobEntry.dir f :: rest) =
        some ((f.name ++ "_" ++ best, v) :: (runJob rest).entries) := by
  have hstep : processSeq f =
      { entry := some (f.name ++ "_" ++ best, v), copy := none
        diags := ["PDB file not found for " ++ best ++ " in " ++ f.name]
        crash := none } := by
    rw [hps]
    simp [processRanking, parseRanking, ho, hs, hv, he, hl]
  refine ⟨hstep, ?_⟩
  show (if (runJob (JobEntry.dir f :: rest)).crash.isSome then none
        else some (runJob (JobEntry.dir f :: rest)).entries) = _
  simp [runJob, hstep, hrest]

/-- Witness for the amended C2 behavior at the concrete folder without
structure files. -/
theorem entry_recorded_before_copy_witness :
    processSeq folderNoPdb =
      { entry := some ("S1_model_3_pred_0", mkRat 175 2), copy := none
        diags := ["PDB file not found for model_3_pred_0 in S1"]
        crash := none }
    ∧ summaryOf [JobEntry.dir folderNoPdb] =
        some [("S1_model_3_pred_0", mkRat 175 2)] := by
  have h := entry_recorded_before_copy folderNoPdb rankingC3 ("model_3_pred_0")
    [("model_3_pred_0", mkRat 175 2)] (mkRat 175 2) 3 []
    (by decide) (by decide) (by decide) (by decide) (by decide) (by decide) (by decide)
  exact h

/-! ### Per-sequence data errors abort the whole run (C1) -/

/-- A ranking whose best model identifier does not match the
`model_<digits>_pred` pattern. -/
def rankingBadModel : RankingData :=
  { order := ["model_A"], plddts := some [("model_A", mkRat 50 1)], iptm := none }

/-- `S0` with a ranking that resolves but defeats the number extraction. -/
def folderBadModel : SeqFolder :=
  { name := "S0"
    files := [("ranking_debug.json", .ranking rankingBadModel),
              ("unrelaxed_model_A.pdb", .raw "ATOM")] }

/-- A ranking carrying neither score key. -/
def rankingNoScores : RankingData :=
  { order := ["model_3_pred_0"], plddts := none, iptm := none }

/-- A sequence folder whose ranking file has no score mapping at all. -/
def folderNoScores : SeqFolder :=
  { name := "S4", files := [("ranking_debug.json", .ranking rankingNoScores)] }

/-- A ranking whose best model identifier is absent from the score
mapping. -/
def rankingMissingKey : RankingData :=
  { order := ["model_3_pred_0"]
    plddts := some [("model_2_pred_0", mkRat 10 1)]
    iptm := none }

/-- A sequence folder whose best model is missing from the score mapping. -/
def folderMissingKey : SeqFolder :=
  { name := "S5", files := [("ranking_debug.json", .ranking rankingMissingKey)] }

/-- C1 evaluated on the code: each of the three per-sequence data errors —
model-number extraction failure (uncaught ValueError from
`extract_best_number`), both score keys missing (uncaught TypeError at
`scores[best_model]` with `scores = None`, after the KEY ERROR diagnostic),
and a best model absent from the score mapping (uncaught KeyError) — aborts
the whole run: a valid sequence folder listed after the faulty one is never
processed, and no `best_models.json` is written.  The claimed skip-and-
continue behavior does not happen. -/
theorem per_sequence_error_aborts_run :
    extract_best_number ("model_A") = none
    ∧ (runJob [JobEntry.dir folderBadModel, JobEntry.dir folderC3]).crash
        = some CrashKind.extractError
    ∧ summaryOf [JobEntry.dir folderBadModel, JobEntry.dir folderC3] = none
    ∧ (runJob [JobEntry.dir folderBadModel, JobEntry.dir folderC3]).copies = []
    ∧ (runJob [JobEntry.dir folderNoScores, JobEntry.dir folderC3]).crash
        = some CrashKind.scoresNone
    ∧ summaryOf [JobEntry.dir folderNoScores, JobEntry.dir folderC3] = none
    ∧ (runJob [JobEntry.dir folderMissingKey, JobEntry.dir folderC3]).crash
        = some CrashKind.modelNotInScores
    ∧ summaryOf [JobEntry.dir folderMissingKey, JobEntry.dir folderC3] = none := by
  refine ⟨by decide, by decide, by decide, by decide, by decide, by decide, by decide,
    by decide⟩

/-- C10 counterexample: a run that completes with no successful sequence
does not necessarily leave an empty JSON object in `best_models.json`.  For
the job whose only sequence folder has a resolvable ranking but no structure
file, the run completes, no structure file is copied (so no sequence
succeeds), yet the written `best_models.json` holds a non-empty mapping —
the entry was recorded before the failed structure-file lookup. -/
theorem nonempty_summary_without_any_success :
    (runJob [JobEntry.dir folderNoPdb]).crash = none
    ∧ (runJob [JobEntry.dir folderNoPdb]).copies = []
    ∧ runOrchestrator emptyStore [JobEntry.dir folderNoPdb] ("best_models.json") =
        some (Content.summaryObj [("S1_model_3_pred_0", mkRat 175 2)])
    ∧ Content.summaryObj [("S1_model_3_pred_0", mkRat 175 2)] ≠ Content.summaryObj [] := by
  refine ⟨by decide, by decide, by decide, by decide⟩

end AFConsolidate
